import Mathlib

/-!
Verification of the cafeteria-management-system order/menu core.

The data model and the operations below are shallow embeddings of the
Python source (`src/models.py`, `src/order.py`, `src/routes/order_routes.py`,
`src/routes/menu_routes.py`, `src/utils/pagination.py`):

* SQLAlchemy rows become Lean structures; the database session becomes an
  explicit `DB` value threaded through every operation.
* Auto-increment primary keys become explicit `next_*` counters on `DB`.
* `Float` money columns are modelled with `ℚ` (exact decimal arithmetic);
  Python `int` columns become `Int`, timestamps become `Nat` ticks.
* A route that answers an error response and rolls back the transaction is
  modelled as `Except`: on `.error` the caller keeps the previous `DB`
  (nothing is persisted), on `.ok` the returned `DB` is the committed state.
-/

namespace Cafeteria

/-- `menu_items` row (`src/models.py`, class `MenuItem`). -/
structure MenuItem where
  id : Nat
  name : String
  description : Option String
  price : ℚ
  category : String
  image_url : Option String
  is_available : Bool
  stock_quantity : Option Int
deriving DecidableEq

/-- `orders` row (`src/models.py`, class `Order`). Note that the row stores
no total column: the total is derived by `Order.calculate_total` below. -/
structure Order where
  id : Nat
  user_id : Nat
  status : String
  is_paid : Bool
  payment_method : Option String
  special_instructions : Option String
  admin_notes : Option String
  created_at : Nat
  updated_at : Nat
  completed_at : Option Nat
deriving DecidableEq

/-- `order_items` row (`src/models.py`, class `OrderItem`). -/
structure OrderItem where
  id : Nat
  order_id : Nat
  menu_item_id : Nat
  quantity : Int
  unit_price : ℚ
deriving DecidableEq

/-- The persistent store: the three tables the order/menu core touches,
plus auto-increment counters for the two tables these operations insert
into. -/
structure DB where
  menu_items : List MenuItem
  orders : List Order
  order_items : List OrderItem
  next_order_id : Nat
  next_order_item_id : Nat
deriving DecidableEq

/-- `Order.validate_status` (`src/models.py`). -/
def Order.validate_status (s : String) : Bool :=
  ["pending", "confirmed", "preparing", "ready", "completed", "cancelled"].contains s

/-- `MenuItem.validate_category` (`src/models.py`). -/
def MenuItem.validate_category (category : String) : Bool :=
  ["beverages", "food", "snacks", "desserts"].contains category.toLower

/-- `OrderItem.subtotal` (`src/models.py`): `quantity * unit_price`. -/
def OrderItem.subtotal (i : OrderItem) : ℚ :=
  (i.quantity : ℚ) * i.unit_price

/-- The `Order.items` relationship: the `order_items` rows whose
`order_id` is this order's id. -/
def Order.items (o : Order) (db : DB) : List OrderItem :=
  db.order_items.filter (fun i => i.order_id == o.id)

/-- `Order.calculate_total` (`src/models.py`): `sum(item.subtotal for item
in self.items)`, recomputed from the lines on every call. -/
def Order.calculate_total (o : Order) (db : DB) : ℚ :=
  ((o.items db).map OrderItem.subtotal).sum

/-- Partial update payload for `PUT /menu/<id>`
(`src/routes/menu_routes.py`, `update_menu_item`): `some` marks a key
present in the request JSON. Nullable columns carry `Option (Option _)`
so a present-but-null key is expressible. -/
structure MenuItemUpdate where
  name : Option String
  description : Option (Option String)
  price : Option ℚ
  category : Option String
  image_url : Option (Option String)
  is_available : Option Bool
  stock_quantity : Option Int
deriving DecidableEq

/-- Error answers of the menu routes, tagged with the failure cause; the
HTTP code the route sends is recovered by `MenuErr.httpStatus`. -/
inductive MenuErr
  | notFound
  | invalidPrice
  | invalidCategory
deriving DecidableEq

/-- The HTTP status codes the menu routes answer with. -/
def MenuErr.httpStatus : MenuErr → Nat
  | .notFound => 404
  | .invalidPrice => 400
  | .invalidCategory => 400

/-- Field-by-field application of `update_menu_item`
(`src/routes/menu_routes.py`): each present key overwrites the column;
a negative price or an unknown category aborts with a 400 answer and
nothing is committed. -/
def applyMenuUpdate (m : MenuItem) (d : MenuItemUpdate) : Except MenuErr MenuItem := do
  let m := match d.name with
    | some n => { m with name := n }
    | none => m
  let m := match d.description with
    | some v => { m with description := v }
    | none => m
  let m ← match d.price with
    | some p =>
        if p < 0 then .error .invalidPrice
        else pure { m with price := p }
    | none => pure m
  let m ← match d.category with
    | some c =>
        if ¬ MenuItem.validate_category c then .error .invalidCategory
        else pure { m with category := c.toLower }
    | none => pure m
  let m := match d.image_url with
    | some v => { m with image_url := v }
    | none => m
  let m := match d.is_available with
    | some b => { m with is_available := b }
    | none => m
  let m := match d.stock_quantity with
    | some q => { m with stock_quantity := some q }
    | none => m
  pure m

/-- `PUT /menu/<id>` (`src/routes/menu_routes.py`, `update_menu_item`):
look the item up, apply the partial update, commit. Only the
`menu_items` table is touched. -/
def update_menu_item (db : DB) (item_id : Nat) (d : MenuItemUpdate) :
    Except MenuErr DB :=
  match db.menu_items.find? (fun m => m.id == item_id) with
  | none => .error .notFound
  | some m =>
      (applyMenuUpdate m d).map (fun m2 =>
        { db with
          menu_items := db.menu_items.map (fun x => if x.id == item_id then m2 else x) })

theorem calculate_total_eq (o : Order) (db : DB) :
    o.calculate_total db
      = ((o.items db).map (fun i => (i.quantity : ℚ) * i.unit_price)).sum := by
  rfl

theorem update_menu_item_order_items {db : DB} {item_id : Nat}
    {d : MenuItemUpdate} {db2 : DB} (h : update_menu_item db item_id d = .ok db2) :
    db2.order_items = db.order_items := by
  unfold update_menu_item at h
  cases hf : db.menu_items.find? (fun m => m.id == item_id) with
  | none => rw [hf] at h; cases h
  | some m =>
      rw [hf] at h
      dsimp only at h
      cases ha : applyMenuUpdate m d with
      | error e => rw [ha] at h; cases h
      | ok m2 =>
          rw [ha] at h
          simp only [Except.map] at h
          cases h
          rfl

/-- C1: an order's computed total is the sum over its lines of
`quantity * unit_price`; the total is recomputed from the lines on every
read (the `Order` row stores no total column), so it is unchanged by any
later catalog price change through `update_menu_item`, because each line
keeps its snapshotted `unit_price`. -/
theorem C1_total_is_sum_and_price_immutable (db : DB) (o : Order) :
    o.calculate_total db
        = ((o.items db).map (fun i => (i.quantity : ℚ) * i.unit_price)).sum
    ∧ ∀ (item_id : Nat) (d : MenuItemUpdate) (db2 : DB),
        update_menu_item db item_id d = .ok db2 →
        o.calculate_total db2 = o.calculate_total db := by
  refine ⟨calculate_total_eq o db, ?_⟩
  intro item_id d db2 h
  have hoi := update_menu_item_order_items h
  unfold Order.calculate_total Order.items
  rw [hoi]

/-- Error answers of the order routes (`src/routes/order_routes.py`),
tagged with the failure cause exactly as the route distinguishes them by
message; the HTTP code the route sends is `OrderErr.httpStatus`. -/
inductive OrderErr
  | itemsRequired
  | itemFieldsMissing
  | menuItemNotFound (mid : Nat)
  | itemUnavailable (nm : String)
  | quantityNotPositive
  | orderNotFound
  | accessDenied
  | notPending
  | orderItemNotFound
  | statusRequired
  | invalidStatus
  | menuItemFieldsRequired
deriving DecidableEq

/-- The HTTP status codes of `src/routes/order_routes.py` for each
failure branch. -/
def OrderErr.httpStatus : OrderErr → Nat
  | .itemsRequired => 400
  | .itemFieldsMissing => 400
  | .menuItemNotFound _ => 404
  | .itemUnavailable _ => 400
  | .quantityNotPositive => 400
  | .orderNotFound => 404
  | .accessDenied => 403
  | .notPending => 400
  | .orderItemNotFound => 404
  | .statusRequired => 400
  | .invalidStatus => 400
  | .menuItemFieldsRequired => 400

/-- The specification's abstract error taxonomy (spec §7):
ValidationError, NotFound, Conflict, Forbidden. -/
inductive ErrorKind
  | validationError
  | notFound
  | conflict
  | forbidden
deriving DecidableEq

/-- Spec-side classification of each concrete failure of the code, written
from the spec's own taxonomy (§7): malformed/missing/out-of-range input is
ValidationError; an absent order / menu item / line id is NotFound;
business-rule violations (unavailable item, mutating a non-pending order)
are Conflict; ownership failures are Forbidden. Used to compare the code's
failure branches against the error kind the spec names for them. -/
def specErrorKind : OrderErr → ErrorKind
  | .itemsRequired => .validationError
  | .itemFieldsMissing => .validationError
  | .menuItemNotFound _ => .notFound
  | .itemUnavailable _ => .conflict
  | .quantityNotPositive => .validationError
  | .orderNotFound => .notFound
  | .accessDenied => .forbidden
  | .notPending => .conflict
  | .orderItemNotFound => .notFound
  | .statusRequired => .validationError
  | .invalidStatus => .validationError
  | .menuItemFieldsRequired => .validationError

/-- One entry of the `items` array in the `POST /orders` request body;
`some` marks a key present in the JSON. -/
structure ItemInput where
  menu_item_id : Option Nat
  quantity : Option Int
deriving DecidableEq

/-- The per-entry validation of the item loop of `create_order`
(`src/routes/order_routes.py`, lines 110-128), in the code's order:
fields present, menu item exists (404), menu item available (400),
quantity positive (400); on success it hands back the parsed entry
together with the menu item row the prices are snapshotted from. -/
def checkEntry (db : DB) (e : ItemInput) :
    Except OrderErr (Nat × Int × MenuItem) :=
  match e.menu_item_id, e.quantity with
  | some mid, some q =>
      match db.menu_items.find? (fun m => m.id == mid) with
      | none => .error (.menuItemNotFound mid)
      | some m =>
          if ¬ m.is_available then .error (.itemUnavailable m.name)
          else if q ≤ 0 then .error .quantityNotPositive
          else .ok (mid, q, m)
  | _, _ => .error .itemFieldsMissing

/-- The item loop of `create_order` (`src/routes/order_routes.py`,
lines 110-138): validate each entry in turn with `checkEntry` and build
one `OrderItem` per entry, snapshotting `unit_price = menu_item.price`;
the first failing entry aborts the whole loop (the route rolls the
transaction back). -/
def build_order_items (db : DB) (oid : Nat) :
    Nat → List ItemInput → Except OrderErr (List OrderItem)
  | _, [] => .ok []
  | next_id, it :: rest =>
      match checkEntry db it with
      | .error err => .error err
      | .ok (_, q, m) =>
          (build_order_items db oid (next_id + 1) rest).map
            (fun ls =>
              { id := next_id, order_id := oid, menu_item_id := m.id,
                quantity := q, unit_price := m.price } :: ls)

/-- `POST /orders` (`src/routes/order_routes.py`, `create_order`): require
a non-empty `items` array, create the order with `status = "pending"` and
`is_paid = false`, then run the item loop; commit appends the new order
row and all its line rows at once, any failure rolls everything back
(nothing is persisted and the caller keeps the previous `DB`). -/
def create_order (db : DB) (user_id : Nat) (items : Option (List ItemInput))
    (special_instructions : Option String) (now : Nat) : Except OrderErr DB :=
  match items with
  | none => .error .itemsRequired
  | some l =>
      if l.isEmpty then .error .itemsRequired
      else
        let oid := db.next_order_id
        let o : Order :=
          { id := oid, user_id := user_id, status := "pending", is_paid := false,
            payment_method := none, special_instructions := special_instructions,
            admin_notes := none, created_at := now, updated_at := now,
            completed_at := none }
        (build_order_items db oid db.next_order_item_id l).map (fun ls =>
          { db with
            orders := db.orders ++ [o],
            order_items := db.order_items ++ ls,
            next_order_id := oid + 1,
            next_order_item_id := db.next_order_item_id + ls.length })

/-- `POST /orders/<id>/items` (`src/routes/order_routes.py`,
`add_order_item`): the caller must own the order, the order must still be
`pending`, the menu item must exist and be available and the quantity be
positive; then a line for the same menu item, if one exists, has its
quantity incremented (its `unit_price` is not touched), otherwise a new
line is created with `unit_price` = the menu item's current price. -/
def add_order_item (db : DB) (user_id : Nat) (order_id : Nat)
    (menu_item_id : Option Nat) (quantity : Option Int) : Except OrderErr DB :=
  match db.orders.find? (fun o => o.id == order_id) with
  | none => .error .orderNotFound
  | some o =>
      if o.user_id ≠ user_id then .error .accessDenied
      else if o.status ≠ "pending" then .error .notPending
      else
        match menu_item_id, quantity with
        | some mid, some q =>
            match db.menu_items.find? (fun m => m.id == mid) with
            | none => .error (.menuItemNotFound mid)
            | some m =>
                if ¬ m.is_available then .error (.itemUnavailable m.name)
                else if q ≤ 0 then .error .quantityNotPositive
                else
                  match db.order_items.find?
                      (fun i => i.order_id == o.id && i.menu_item_id == m.id) with
                  | some existing =>
                      .ok { db with
                            order_items := db.order_items.map (fun i =>
                              if i.id == existing.id
                              then { i with quantity := i.quantity + q } else i) }
                  | none =>
                      .ok { db with
                            order_items := db.order_items ++
                              [{ id := db.next_order_item_id, order_id := o.id,
                                 menu_item_id := m.id, quantity := q,
                                 unit_price := m.price }],
                            next_order_item_id := db.next_order_item_id + 1 }
        | _, _ => .error .menuItemFieldsRequired

/-- `DELETE /orders/<id>/items/<item_id>` (`src/routes/order_routes.py`,
`remove_order_item`): owner-only, pending-only; deletes the line row
outright (the route takes no quantity argument). The order row itself is
never deleted here. -/
def remove_order_item (db : DB) (user_id : Nat) (order_id : Nat)
    (item_id : Nat) : Except OrderErr DB :=
  match db.orders.find? (fun o => o.id == order_id) with
  | none => .error .orderNotFound
  | some o =>
      if o.user_id ≠ user_id then .error .accessDenied
      else if o.status ≠ "pending" then .error .notPending
      else
        match db.order_items.find? (fun i => i.id == item_id) with
        | none => .error .orderItemNotFound
        | some item =>
            if item.order_id ≠ order_id then .error .orderItemNotFound
            else .ok { db with
                       order_items := db.order_items.filter
                         (fun i => i.id != item_id) }

/-- The `ValueError` causes `OrderHandler` (`src/order.py`) raises. -/
inductive HandlerErr
  | orderDoesNotExist (oid : Nat)
  | orderItemDoesNotExist
  | invalidStatus
deriving DecidableEq

/-- `OrderHandler.remove_item` (`src/order.py`, lines 72-90): find the
line of the order for the given menu item; with `quantity` omitted
(`None`) or `quantity >= item.quantity` the line row is deleted, otherwise
`item.quantity` is decremented in place. The order row is never touched. -/
def OrderHandler.remove_item (db : DB) (order_id : Nat) (menu_item_id : Nat)
    (quantity : Option Int) : Except HandlerErr DB :=
  match db.orders.find? (fun o => o.id == order_id) with
  | none => .error (.orderDoesNotExist order_id)
  | some o =>
      match db.order_items.find?
          (fun i => i.order_id == o.id && i.menu_item_id == menu_item_id) with
      | none => .error .orderItemDoesNotExist
      | some item =>
          match quantity with
          | none =>
              .ok { db with
                    order_items := db.order_items.filter (fun i => i.id != item.id) }
          | some q =>
              if item.quantity ≤ q then
                .ok { db with
                      order_items := db.order_items.filter (fun i => i.id != item.id) }
              else
                .ok { db with
                      order_items := db.order_items.map (fun i =>
                        if i.id == item.id
                        then { i with quantity := i.quantity - q } else i) }

/-- `OrderHandler.update_status` (`src/order.py`, lines 95-104): validate
the status value and assign it; there is no check of the current status,
in particular none against `completed`/`cancelled`. -/
def OrderHandler.update_status (db : DB) (order_id : Nat)
    (new_status : String) : Except HandlerErr DB :=
  match db.orders.find? (fun o => o.id == order_id) with
  | none => .error (.orderDoesNotExist order_id)
  | some _ =>
      if ¬ Order.validate_status new_status then .error .invalidStatus
      else .ok { db with
                 orders := db.orders.map (fun x =>
                   if x.id == order_id then { x with status := new_status } else x) }

/-- The field assignments of `update_order_status`
(`src/routes/order_routes.py`, lines 273-281): set the status, stamp
`completed_at = now` exactly when the new status is `completed` (never
cleared otherwise), and set `admin_notes` when the key is present. -/
def applyStatusPatch (o : Order) (ns : String) (admin_notes : Option String)
    (now : Nat) : Order :=
  let o2 := { o with status := ns }
  let o3 := if ns == "completed" then { o2 with completed_at := some now } else o2
  match admin_notes with
  | some t => { o3 with admin_notes := some t }
  | none => o3

/-- `PATCH /orders/<id>/status` (`src/routes/order_routes.py`,
`update_order_status`; the staff/admin gate is the external decorator and
is outside this model): validate the status value and apply
`applyStatusPatch`. The current status is never inspected — there is no
terminal-state check. -/
def update_order_status (db : DB) (order_id : Nat) (new_status : Option String)
    (admin_notes : Option String) (now : Nat) : Except OrderErr DB :=
  match db.orders.find? (fun o => o.id == order_id) with
  | none => .error .orderNotFound
  | some o =>
      match new_status with
      | none => .error .statusRequired
      | some ns =>
          if ¬ Order.validate_status ns then .error .invalidStatus
          else
            .ok { db with
                  orders := db.orders.map (fun x =>
                    if x.id == order_id then applyStatusPatch o ns admin_notes now else x) }

/-- Python `str.strip()`, at character level: drop whitespace from both
ends. -/
def trimChars (l : List Char) : List Char :=
  ((l.dropWhile Char.isWhitespace).reverse.dropWhile Char.isWhitespace).reverse

/-- Python `str.lower()`, at character level. -/
def strToLower (s : String) : String :=
  String.mk (s.data.map Char.toLower)

/-- SQL `LIKE` pattern matching over characters: `%` matches any sequence
of characters (tried on every suffix), `_` matches any single character,
any other pattern character matches itself. -/
def likeMatch : List Char → List Char → Bool
  | [], s => s.isEmpty
  | p :: ps, s =>
      if p = '%' then s.tails.any (fun t => likeMatch ps t)
      else
        match s with
        | [] => false
        | c :: t => if p = '_' then likeMatch ps t else (p == c) && likeMatch ps t

/-- SQL `ILIKE`: `LIKE` with both sides case-folded. -/
def ilike (pat s : List Char) : Bool :=
  likeMatch (pat.map Char.toLower) (s.map Char.toLower)

/-- Lexicographic comparison of character lists, the ordering backing
`ORDER BY` on a text column. -/
def charListLe : List Char → List Char → Bool
  | [], _ => true
  | _ :: _, [] => false
  | a :: as, b :: bs => if a = b then charListLe as bs else decide (a < b)

/-- `src/utils/pagination.py`, `paginate`: cap `per_page` at
`MAX_ITEMS_PER_PAGE = 100`, clamp `page` to at least 1, and return the
page slice (the routes pass `per_page` with default 20). -/
def paginate {α : Type} (l : List α) (page : Nat) (per_page : Nat) : List α :=
  let per := min per_page 100
  let pg := max 1 page
  (l.drop ((pg - 1) * per)).take per

/-- The user scoping of `GET /orders` (`src/routes/order_routes.py`,
`get_orders`, lines 20-30): a caller whose role is neither `admin` nor
`staff` is always restricted to their own orders, whatever filter they
pass; staff/admin may restrict to a given `user_id` (`if filter_user_id:`
— an absent, unparsable or zero value means no restriction). -/
def orders_user_scoped (db : DB) (user_id : Nat) (role : String)
    (filter_user_id : Option Nat) : List Order :=
  if ¬ (role == "admin" || role == "staff") then
    db.orders.filter (fun o => o.user_id == user_id)
  else
    match filter_user_id with
    | some uid =>
        if uid ≠ 0 then db.orders.filter (fun o => o.user_id == uid) else db.orders
    | none => db.orders

/-- The rest of the `GET /orders` query: the optional status filter
(`if status:` — empty means absent), the optional payment filter
(`is_paid.lower() == 'true'`), then `ORDER BY created_at DESC`
(modelled as a sort by the key). -/
def orders_query (db : DB) (user_id : Nat) (role : String)
    (filter_user_id : Option Nat) (status_f : Option String)
    (is_paid_f : Option String) : List Order :=
  let l := orders_user_scoped db user_id role filter_user_id
  let l := match status_f with
    | some st => if st.isEmpty then l else l.filter (fun o => o.status == st)
    | none => l
  let l := match is_paid_f with
    | some v => l.filter (fun o => o.is_paid == (strToLower v == "true"))
    | none => l
  List.insertionSort (fun a b => b.created_at ≤ a.created_at) l

/-- `GET /orders` (`src/routes/order_routes.py`, `get_orders`): a
non-empty status filter that is not a valid status is a 400 answer;
otherwise the scoped, filtered, sorted query is paginated. -/
def get_orders (db : DB) (user_id : Nat) (role : String)
    (filter_user_id : Option Nat) (status_f : Option String)
    (is_paid_f : Option String) (page : Nat) (per_page : Nat) :
    Except OrderErr (List Order) :=
  match status_f with
  | some st =>
      if !st.isEmpty && !Order.validate_status st then .error .invalidStatus
      else
        .ok (paginate (orders_query db user_id role filter_user_id (some st) is_paid_f)
              page per_page)
  | none =>
      .ok (paginate (orders_query db user_id role filter_user_id none is_paid_f)
            page per_page)

/-- The `GET /menu` query (`src/routes/menu_routes.py`, `get_menu`,
lines 13-32) before pagination: the optional category filter (the param
lowercased, `if category:` — empty means absent), the availability filter
applied exactly when the `available` param's lowercase form is `"true"`
(an absent param defaults to `"true"`), the stripped search text as a
case-insensitive `%search%` LIKE filter on the name when non-empty. -/
def menu_filtered (db : DB) (category : Option String) (available : Option String)
    (search : Option String) : List MenuItem :=
  let available_only := strToLower (available.getD "true") == "true"
  let search2 := trimChars (search.getD "").data
  let l := db.menu_items
  let l := match category with
    | some c => if c.isEmpty then l else l.filter (fun m => m.category == strToLower c)
    | none => l
  let l := if available_only then l.filter (fun m => m.is_available) else l
  if search2.isEmpty then l
  else l.filter (fun m => ilike ('%' :: search2 ++ ['%']) m.name.data)

/-- The `GET /menu` query: the filtered catalog, then `ORDER BY name`
ascending (modelled as a sort by the name key). -/
def menu_query (db : DB) (category : Option String) (available : Option String)
    (search : Option String) : List MenuItem :=
  List.insertionSort (fun a b => charListLe a.name.data b.name.data = true)
    (menu_filtered db category available search)

/-- `GET /menu` (`src/routes/menu_routes.py`, `get_menu`): the query,
paginated. -/
def get_menu (db : DB) (category : Option String) (available : Option String)
    (search : Option String) (page : Nat) (per_page : Nat) : List MenuItem :=
  paginate (menu_query db category available search) page per_page

/-- Spec-side (§4.1 `listItems`): the search text occurs as a
case-insensitive substring of the item's name — stated on the case-folded
character lists, to be compared with the `ILIKE` filter the code runs. -/
def ciSubstring (needle hay : String) : Prop :=
  (needle.data.map Char.toLower) <:+: (hay.data.map Char.toLower)

instance (needle hay : String) : Decidable (ciSubstring needle hay) := by
  unfold ciSubstring
  infer_instance

deriving instance DecidableEq for Except

theorem applyStatusPatch_status (o : Order) (ns : String)
    (notes : Option String) (now : Nat) :
    (applyStatusPatch o ns notes now).status = ns := by
  unfold applyStatusPatch
  cases notes <;> by_cases h : (ns == "completed") = true <;> simp [h]

theorem applyStatusPatch_completed_at (o : Order) (ns : String)
    (notes : Option String) (now : Nat) :
    (applyStatusPatch o ns notes now).completed_at
      = if (ns == "completed") = true then some now else o.completed_at := by
  unfold applyStatusPatch
  cases notes <;> by_cases h : (ns == "completed") = true <;> simp [h]

/-- An order of the worked example for C3: already `completed` (with its
completion stamp), owned by user 1. -/
def exOrderC3 : Order :=
  { id := 1, user_id := 1, status := "completed", is_paid := true,
    payment_method := none, special_instructions := none, admin_notes := none,
    created_at := 0, updated_at := 0, completed_at := some 3 }

def exDBC3 : DB :=
  { menu_items := [], orders := [exOrderC3], order_items := [],
    next_order_id := 2, next_order_item_id := 1 }

def exDBC3' : DB :=
  { exDBC3 with orders := [{ exOrderC3 with status := "pending" }] }

/-- C3 counterexample: the claim says an order in a terminal state can
never have its status changed, but on a `completed` order both the route
handler and `OrderHandler.update_status` happily set the status back to
`pending` — neither contains a terminal-state check. -/
theorem C3_counterexample_terminal_not_protected :
    exOrderC3.status = "completed"
    ∧ update_order_status exDBC3 1 (some "pending") none 7 = .ok exDBC3'
    ∧ OrderHandler.update_status exDBC3 1 "pending" = .ok exDBC3'
    ∧ exDBC3'.orders.map Order.status = ["pending"] := by
  decide

/-- C3 (amended): `updateStatus` validates only that the new status value
is one of the six allowed statuses; the current status is never
inspected, so there is no terminal-state protection: for every existing
order — whatever its current status, `completed` and `cancelled`
included — and every valid new status, both the route and
`OrderHandler.update_status` succeed and set the status. -/
theorem C3_amended_any_transition_succeeds (db : DB) (oid : Nat) (o : Order)
    (ns : String) (notes : Option String) (now : Nat)
    (ho : db.orders.find? (fun x => x.id == oid) = some o)
    (hv : Order.validate_status ns = true) :
    update_order_status db oid (some ns) notes now
      = .ok { db with orders := db.orders.map (fun x =>
          if x.id == oid then applyStatusPatch o ns notes now else x) }
    ∧ (applyStatusPatch o ns notes now).status = ns
    ∧ OrderHandler.update_status db oid ns
      = .ok { db with orders := db.orders.map (fun x =>
          if x.id == oid then { x with status := ns } else x) } := by
  refine ⟨?_, applyStatusPatch_status o ns notes now, ?_⟩
  · unfold update_order_status
    rw [ho]
    simp [hv]
  · unfold OrderHandler.update_status
    rw [ho]
    simp [hv]

theorem C3_witness :
    exDBC3.orders.find? (fun x => x.id == 1) = some exOrderC3
    ∧ Order.validate_status "pending" = true
    ∧ update_order_status exDBC3 1 (some "pending") none 7
        = .ok { exDBC3 with orders := exDBC3.orders.map (fun x =>
            if x.id == 1 then applyStatusPatch exOrderC3 "pending" none 7 else x) } :=
  ⟨by decide, by decide,
    (C3_amended_any_transition_succeeds exDBC3 1 exOrderC3 "pending" none 7
      (by decide) (by decide)).1⟩

/-- An order of the worked example for C6: `pending`, no completion
stamp. -/
def exOrderC6 : Order :=
  { id := 1, user_id := 1, status := "pending", is_paid := false,
    payment_method := none, special_instructions := none, admin_notes := none,
    created_at := 0, updated_at := 0, completed_at := none }

def exDBC6 : DB :=
  { menu_items := [], orders := [exOrderC6], order_items := [],
    next_order_id := 2, next_order_item_id := 1 }

def exDBC6a : DB :=
  { exDBC6 with orders := [{ exOrderC6 with status := "completed", completed_at := some 5 }] }

def exOrderC6b : Order :=
  { exOrderC6 with status := "ready", completed_at := some 5 }

def exDBC6b : DB :=
  { exDBC6 with orders := [exOrderC6b] }

/-- C6 counterexample: the biconditional `completed_at ≠ null ↔ status =
completed` is not an invariant. Starting from a pending order with no
stamp, updating to `completed` stamps `completed_at`; updating again to
`ready` changes the status but never clears the stamp, leaving an order
with `status = "ready"` and `completed_at` non-null. -/
theorem C6_counterexample_biconditional_broken :
    exOrderC6.status = "pending" ∧ exOrderC6.completed_at = none
    ∧ update_order_status exDBC6 1 (some "completed") none 5 = .ok exDBC6a
    ∧ update_order_status exDBC6a 1 (some "ready") none 9 = .ok exDBC6b
    ∧ exDBC6b.orders = [exOrderC6b]
    ∧ ¬ (exOrderC6b.status = "completed" ↔ exOrderC6b.completed_at ≠ none) := by
  decide

/-- C6 (amended): `update_order_status` preserves only the forward
implication of the claimed invariant — on every reachable state where
each order with `status = completed` has a non-null `completed_at`, this
implication still holds after the update (setting the status to
`completed` stamps `completed_at = now`) — and `completed_at` is never
cleared (rows are keyed by unique ids). The converse direction is not
preserved: moving a completed order to another status leaves the stamp
set, as the counterexample shows. -/
theorem C6_amended_completed_at_forward_invariant (db : DB) (oid : Nat)
    (ns : Option String) (notes : Option String) (now : Nat) (db2 : DB)
    (hids : db.orders.Pairwise (fun a b => a.id ≠ b.id))
    (h : update_order_status db oid ns notes now = .ok db2)
    (hinv : ∀ o ∈ db.orders, o.status = "completed" → o.completed_at ≠ none) :
    (∀ o ∈ db2.orders, o.status = "completed" → o.completed_at ≠ none)
    ∧ (∀ (i : Nat) (x y : Order), db.orders[i]? = some x →
        db2.orders[i]? = some y → x.completed_at ≠ none → y.completed_at ≠ none) := by
  unfold update_order_status at h
  cases hf : db.orders.find? (fun o => o.id == oid) with
  | none => rw [hf] at h; cases h
  | some o0 =>
      rw [hf] at h
      dsimp only at h
      cases ns with
      | none => cases h
      | some nsv =>
          dsimp only at h
          by_cases hv : Order.validate_status nsv = true
          · rw [if_neg (by simp [hv])] at h
            cases h
            have hid0 : (o0.id == oid) = true := by
              have h1 := List.find?_some hf
              simpa using h1
            have hmem0 : o0 ∈ db.orders := List.mem_of_find?_eq_some hf
            constructor
            · intro o hmem hst
              simp only [List.mem_map] at hmem
              obtain ⟨x, hx, hfx⟩ := hmem
              by_cases hxid : (x.id == oid) = true
              · rw [if_pos hxid] at hfx
                subst hfx
                rw [applyStatusPatch_status] at hst
                rw [applyStatusPatch_completed_at]
                simp [hst]
              · rw [if_neg hxid] at hfx
                subst hfx
                exact hinv x hx hst
            · intro i x y hx hy hxc
              simp only [List.getElem?_map, hx, Option.map_some'] at hy
              cases hy
              by_cases hxid : (x.id == oid) = true
              · rw [if_pos hxid]
                have hxmem : x ∈ db.orders := List.getElem?_mem hx
                have hxeq : x.id = oid := by simpa using hxid
                have ho0eq : o0.id = oid := by simpa using hid0
                have hxo0 : x = o0 := by
                  by_contra hne
                  exact (List.Pairwise.forall (fun a b hab => (Ne.symm hab))
                    hids hxmem hmem0 hne) (by rw [hxeq, ho0eq])
                rw [applyStatusPatch_completed_at]
                by_cases hc : (nsv == "completed") = true
                · simp [hc]
                · simp only [hc, if_false]
                  rw [← hxo0]
                  exact hxc
              · rw [if_neg hxid]
                exact hxc
          · rw [if_pos (by simp [hv])] at h
            cases h

theorem C6_witness :
    exDBC6.orders.Pairwise (fun a b => a.id ≠ b.id)
    ∧ update_order_status exDBC6 1 (some "completed") none 5 = .ok exDBC6a
    ∧ (∀ o ∈ exDBC6a.orders, o.status = "completed" → o.completed_at ≠ none) :=
  ⟨by decide, by decide,
    (C6_amended_completed_at_forward_invariant exDBC6 1 (some "completed") none 5
      exDBC6a (by decide) (by decide) (by decide)).1⟩

/-- C7: for an existing order owned by the caller whose status is not
`pending`, both `addItem` and `removeItem` fail with the
"Can only modify pending orders" answer — the spec's `Conflict` kind —
before touching anything: in this model an `.error` answer means the
transaction was not committed, so the order and its line collection are
unchanged. -/
theorem C7_nonpending_mutation_rejected (db : DB) (uid oid item_id : Nat)
    (mid : Option Nat) (q : Option Int) (o : Order)
    (ho : db.orders.find? (fun x => x.id == oid) = some o)
    (hown : o.user_id = uid)
    (hnp : o.status ≠ "pending") :
    add_order_item db uid oid mid q = .error .notPending
    ∧ remove_order_item db uid oid item_id = .error .notPending
    ∧ specErrorKind .notPending = .conflict := by
  refine ⟨?_, ?_, rfl⟩
  · unfold add_order_item
    rw [ho]
    simp [hown, hnp]
  · unfold remove_order_item
    rw [ho]
    simp [hown, hnp]

theorem C7_witness :
    exOrderC3.user_id = 1 ∧ exOrderC3.status ≠ "pending"
    ∧ add_order_item exDBC3 1 1 (some 1) (some 1) = .error .notPending
    ∧ remove_order_item exDBC3 1 1 1 = .error .notPending :=
  have h := C7_nonpending_mutation_rejected exDBC3 1 1 1 (some 1) (some 1) exOrderC3
    (by decide) (by decide) (by decide)
  ⟨by decide, by decide, h.1, h.2.1⟩

/-- The worked example for C1: a catalog item at price 3, an order with a
line of 2 units snapshotted at 3, and a catalog price update to 5. -/
def exItemC1 : MenuItem :=
  { id := 1, name := "Tea", description := none, price := 3,
    category := "beverages", image_url := none, is_available := true,
    stock_quantity := some 0 }

def exOrderC1 : Order :=
  { id := 1, user_id := 1, status := "pending", is_paid := false,
    payment_method := none, special_instructions := none, admin_notes := none,
    created_at := 0, updated_at := 0, completed_at := none }

def exLineC1 : OrderItem :=
  { id := 1, order_id := 1, menu_item_id := 1, quantity := 2, unit_price := 3 }

def exDBC1 : DB :=
  { menu_items := [exItemC1], orders := [exOrderC1], order_items := [exLineC1],
    next_order_id := 2, next_order_item_id := 2 }

def exUpdC1 : MenuItemUpdate :=
  { name := none, description := none, price := some 5, category := none,
    image_url := none, is_available := none, stock_quantity := none }

def exDBC1' : DB :=
  { exDBC1 with menu_items := [{ exItemC1 with price := 5 }] }

theorem C1_witness :
    update_menu_item exDBC1 1 exUpdC1 = .ok exDBC1'
    ∧ exOrderC1.calculate_total exDBC1' = exOrderC1.calculate_total exDBC1 :=
  ⟨by decide,
    (C1_total_is_sum_and_price_immutable exDBC1 exOrderC1).2 1 exUpdC1 exDBC1'
      (by decide)⟩

theorem remove_order_item_orders {db : DB} {uid oid iid : Nat} {db2 : DB}
    (h : remove_order_item db uid oid iid = .ok db2) : db2.orders = db.orders := by
  unfold remove_order_item at h
  cases hf : db.orders.find? (fun o => o.id == oid) with
  | none => rw [hf] at h; cases h
  | some o =>
      rw [hf] at h
      dsimp only at h
      by_cases h1 : o.user_id ≠ uid
      · rw [if_pos h1] at h; cases h
      · rw [if_neg h1] at h
        by_cases h2 : o.status ≠ "pending"
        · rw [if_pos h2] at h; cases h
        · rw [if_neg h2] at h
          cases hi : db.order_items.find? (fun i => i.id == iid) with
          | none => rw [hi] at h; cases h
          | some item =>
              rw [hi] at h
              dsimp only at h
              by_cases h3 : item.order_id ≠ oid
              · rw [if_pos h3] at h; cases h
              · rw [if_neg h3] at h
                cases h
                rfl

/-- C5: `OrderHandler.remove_item` on an existing order and an existing
line of it: with the quantity argument omitted, or with a quantity at
least the line's current quantity, the line row is deleted outright; with
a smaller positive quantity the line's quantity is decremented in place;
and in every successful case — the route variant `remove_order_item`
included — the `orders` table is untouched, so removing the last
remaining line never deletes the order itself. -/
theorem C5_remove_item_semantics (db : DB) (oid mid : Nat) (q : Option Int)
    (o : Order) (item : OrderItem)
    (ho : db.orders.find? (fun x => x.id == oid) = some o)
    (hit : db.order_items.find?
      (fun i => i.order_id == o.id && i.menu_item_id == mid) = some item) :
    (q = none → OrderHandler.remove_item db oid mid q
        = .ok { db with order_items := db.order_items.filter (fun i => i.id != item.id) })
    ∧ (∀ n : Int, q = some n → item.quantity ≤ n →
        OrderHandler.remove_item db oid mid q
          = .ok { db with order_items := db.order_items.filter (fun i => i.id != item.id) })
    ∧ (∀ n : Int, q = some n → 0 < n → n < item.quantity →
        OrderHandler.remove_item db oid mid q
          = .ok { db with order_items := db.order_items.map (fun i =>
              if i.id == item.id then { i with quantity := i.quantity - n } else i) })
    ∧ (∀ i ∈ db.order_items.filter (fun i => i.id != item.id), i.id ≠ item.id)
    ∧ (∀ db2, OrderHandler.remove_item db oid mid q = .ok db2 → db2.orders = db.orders)
    ∧ (∀ (uid2 oid2 iid2 : Nat) (db2 : DB),
        remove_order_item db uid2 oid2 iid2 = .ok db2 → db2.orders = db.orders) := by
  have hbody : ∀ qq, OrderHandler.remove_item db oid mid qq
      = match qq with
        | none => .ok { db with order_items := db.order_items.filter (fun i => i.id != item.id) }
        | some n =>
            if item.quantity ≤ n then
              .ok { db with order_items := db.order_items.filter (fun i => i.id != item.id) }
            else
              .ok { db with order_items := db.order_items.map (fun i =>
                if i.id == item.id then { i with quantity := i.quantity - n } else i) } := by
    intro qq
    unfold OrderHandler.remove_item
    rw [ho]
    dsimp only
    rw [hit]
  refine ⟨?_, ?_, ?_, ?_, ?_, ?_⟩
  · intro hq; subst hq; exact hbody none
  · intro n hq hle
    subst hq
    rw [hbody (some n)]
    simp [hle]
  · intro n hq _ hlt
    subst hq
    rw [hbody (some n)]
    simp [not_le.mpr hlt]
  · intro i hi
    have := (List.mem_filter.mp hi).2
    simpa using this
  · intro db2 h2
    rw [hbody q] at h2
    cases q with
    | none => cases h2; rfl
    | some n =>
        dsimp only at h2
        by_cases hle : item.quantity ≤ n
        · rw [if_pos hle] at h2; cases h2; rfl
        · rw [if_neg hle] at h2; cases h2; rfl
  · intro uid2 oid2 iid2 db2 h2
    exact remove_order_item_orders h2

def exItemC5 : MenuItem :=
  { id := 1, name := "Bun", description := none, price := 2,
    category := "food", image_url := none, is_available := true,
    stock_quantity := some 0 }

def exLineC5 : OrderItem :=
  { id := 1, order_id := 1, menu_item_id := 1, quantity := 5, unit_price := 2 }

def exDBC5 : DB :=
  { menu_items := [exItemC5], orders := [exOrderC1], order_items := [exLineC5],
    next_order_id := 2, next_order_item_id := 2 }

theorem C5_witness :
    exDBC5.order_items.find? (fun i => i.order_id == 1 && i.menu_item_id == 1)
      = some exLineC5
    ∧ OrderHandler.remove_item exDBC5 1 1 (some 7)
        = .ok { exDBC5 with
                order_items := exDBC5.order_items.filter (fun i => i.id != exLineC5.id) } :=
  ⟨by decide,
    (C5_remove_item_semantics exDBC5 1 1 (some 7) exOrderC1 exLineC5
      (by decide) (by decide)).2.1 7 rfl (by decide)⟩

theorem find?_map_congr {α : Type} (f : α → α) (p : α → Bool) (l : List α)
    (h : ∀ x, p (f x) = p x) : (l.map f).find? p = (l.find? p).map f := by
  rw [List.find?_map]
  have hpf : p ∘ f = p := funext h
  rw [hpf]

/-- C4: `addItem` on a pending order the caller owns, an available menu
item and a positive quantity. If the order already has a line for that
menu item, that line's quantity is incremented by the given amount and
its `unit_price` is left exactly as snapshotted — the conclusion does not
mention the item's current catalog price at all, so a catalog price
change since line creation cannot affect it. If no such line exists, a
new line is appended whose `unit_price` is the menu item's current
catalog price. -/
theorem C4_add_item_merge_or_snapshot (db : DB) (uid oid mid : Nat) (q : Int)
    (o : Order) (m : MenuItem)
    (ho : db.orders.find? (fun x => x.id == oid) = some o)
    (hown : o.user_id = uid)
    (hp : o.status = "pending")
    (hm : db.menu_items.find? (fun x => x.id == mid) = some m)
    (hav : m.is_available = true)
    (hq : 0 < q) :
    (∀ ex, db.order_items.find?
        (fun i => i.order_id == o.id && i.menu_item_id == m.id) = some ex →
        add_order_item db uid oid (some mid) (some q)
          = .ok { db with order_items := db.order_items.map (fun i =>
              if i.id == ex.id then { i with quantity := i.quantity + q } else i) }
        ∧ (db.order_items.map (fun i =>
              if i.id == ex.id then { i with quantity := i.quantity + q } else i)).find?
              (fun i => i.order_id == o.id && i.menu_item_id == m.id)
            = some { ex with quantity := ex.quantity + q })
    ∧ (db.order_items.find?
        (fun i => i.order_id == o.id && i.menu_item_id == m.id) = none →
        add_order_item db uid oid (some mid) (some q)
          = .ok { db with
                  order_items := db.order_items ++
                    [{ id := db.next_order_item_id, order_id := o.id,
                       menu_item_id := m.id, quantity := q, unit_price := m.price }],
                  next_order_item_id := db.next_order_item_id + 1 }) := by
  have hbody : add_order_item db uid oid (some mid) (some q)
      = match db.order_items.find?
          (fun i => i.order_id == o.id && i.menu_item_id == m.id) with
        | some existing =>
            .ok { db with order_items := db.order_items.map (fun i =>
              if i.id == existing.id then { i with quantity := i.quantity + q } else i) }
        | none =>
            .ok { db with
                  order_items := db.order_items ++
                    [{ id := db.next_order_item_id, order_id := o.id,
                       menu_item_id := m.id, quantity := q, unit_price := m.price }],
                  next_order_item_id := db.next_order_item_id + 1 } := by
    unfold add_order_item
    rw [ho]
    try dsimp only
    rw [if_neg (by simp [hown]), if_neg (by simp [hp])]
    try dsimp only
    rw [hm]
    try dsimp only
    rw [if_neg (by simp [hav]), if_neg (not_le.mpr hq)]
  constructor
  · intro ex hex
    rw [hbody, hex]
    refine ⟨rfl, ?_⟩
    rw [find?_map_congr _ _ _ (fun i => by by_cases hi : (i.id == ex.id) = true <;> simp [hi])]
    rw [hex]
    have hexid : (ex.id == ex.id) = true := by simp
    simp [hexid]
  · intro hnone
    rw [hbody, hnone]

def exItemC4 : MenuItem :=
  { id := 1, name := "Latte", description := none, price := 4,
    category := "beverages", image_url := none, is_available := true,
    stock_quantity := some 0 }

/-- A line snapshotted at the old price 3, while the catalog now says 4:
the C4 witness shows `addItem` keeps the snapshot. -/
def exLineC4 : OrderItem :=
  { id := 1, order_id := 1, menu_item_id := 1, quantity := 2, unit_price := 3 }

def exDBC4 : DB :=
  { menu_items := [exItemC4], orders := [exOrderC1], order_items := [exLineC4],
    next_order_id := 2, next_order_item_id := 2 }

theorem C4_witness :
    exDBC4.order_items.find? (fun i => i.order_id == 1 && i.menu_item_id == 1)
      = some exLineC4
    ∧ exItemC4.price ≠ exLineC4.unit_price
    ∧ (exDBC4.order_items.map (fun i =>
          if i.id == exLineC4.id then { i with quantity := i.quantity + 3 } else i)).find?
          (fun i => i.order_id == 1 && i.menu_item_id == 1)
        = some { exLineC4 with quantity := exLineC4.quantity + 3 } :=
  ⟨by decide, by decide,
    ((C4_add_item_merge_or_snapshot exDBC4 1 1 1 3 exOrderC1 exItemC4
      (by decide) (by decide) (by decide) (by decide) (by decide) (by decide)).1
      exLineC4 (by decide)).2⟩

/-- A well-formed entry of a `create_order` request, exactly the
conditions `checkEntry` accepts: both fields present, the referenced menu
item exists and is available, and the quantity positive. -/
def validEntry (db : DB) (e : ItemInput) : Prop :=
  ∃ mid q m, e.menu_item_id = some mid ∧ e.quantity = some q ∧
    db.menu_items.find? (fun x => x.id == mid) = some m ∧
    m.is_available = true ∧ 0 < q

/-- The defect of a single entry that produces a given error answer of
the `create_order` item loop. -/
def entryFailCause (db : DB) (e : ItemInput) : OrderErr → Prop
  | .itemFieldsMissing => e.menu_item_id = none ∨ e.quantity = none
  | .menuItemNotFound mid => e.menu_item_id = some mid ∧
      db.menu_items.find? (fun x => x.id == mid) = none
  | .itemUnavailable nm => ∃ mid m, e.menu_item_id = some mid ∧
      db.menu_items.find? (fun x => x.id == mid) = some m ∧
      m.name = nm ∧ m.is_available = false
  | .quantityNotPositive => ∃ mid q m, e.menu_item_id = some mid ∧
      e.quantity = some q ∧
      db.menu_items.find? (fun x => x.id == mid) = some m ∧ q ≤ 0
  | _ => False

/-- A failed `create_order` names a defect of one of its entries. -/
def createFailCause (db : DB) (l : List ItemInput) (err : OrderErr) : Prop :=
  ∃ e ∈ l, entryFailCause db e err

theorem checkEntry_error_cause {db : DB} {e : ItemInput} {err : OrderErr}
    (h : checkEntry db e = .error err) : entryFailCause db e err := by
  unfold checkEntry at h
  cases hm1 : e.menu_item_id with
  | none =>
      rw [hm1] at h
      cases hq1 : e.quantity <;> rw [hq1] at h <;> dsimp only at h <;> cases h <;>
        exact Or.inl hm1
  | some mid =>
      rw [hm1] at h
      cases hq1 : e.quantity with
      | none =>
          rw [hq1] at h
          dsimp only at h
          cases h
          exact Or.inr hq1
      | some q =>
          rw [hq1] at h
          dsimp only at h
          cases hf : db.menu_items.find? (fun m => m.id == mid) with
          | none =>
              rw [hf] at h
              cases h
              exact ⟨hm1, hf⟩
          | some m =>
              rw [hf] at h
              dsimp only at h
              by_cases hav : m.is_available = true
              · rw [if_neg (by simp [hav])] at h
                by_cases hq0 : q ≤ 0
                · rw [if_pos hq0] at h
                  cases h
                  exact ⟨mid, q, m, hm1, hq1, hf, hq0⟩
                · rw [if_neg hq0] at h
                  cases h
              · rw [if_pos (by simp [hav])] at h
                cases h
                exact ⟨mid, m, hm1, hf, rfl, by simpa using hav⟩

theorem checkEntry_ok_iff {db : DB} {e : ItemInput} :
    (∃ v, checkEntry db e = .ok v) ↔ validEntry db e := by
  constructor
  · rintro ⟨⟨mid, q, m⟩, hv⟩
    unfold checkEntry at hv
    cases hm1 : e.menu_item_id with
    | none =>
        rw [hm1] at hv
        cases hq1 : e.quantity <;> rw [hq1] at hv <;> cases hv
    | some mid2 =>
        rw [hm1] at hv
        cases hq1 : e.quantity with
        | none => rw [hq1] at hv; cases hv
        | some q2 =>
            rw [hq1] at hv
            dsimp only at hv
            cases hf : db.menu_items.find? (fun m => m.id == mid2) with
            | none => rw [hf] at hv; cases hv
            | some m2 =>
                rw [hf] at hv
                dsimp only at hv
                by_cases hav : m2.is_available = true
                · rw [if_neg (by simp [hav])] at hv
                  by_cases hq0 : q2 ≤ 0
                  · rw [if_pos hq0] at hv; cases hv
                  · rw [if_neg hq0] at hv
                    cases hv
                    exact ⟨mid, q, m, hm1, hq1, hf, hav, lt_of_not_le hq0⟩
                · rw [if_pos (by simp [hav])] at hv
                  cases hv
  · rintro ⟨mid, q, m, hm1, hq1, hf, hav, hq⟩
    refine ⟨(mid, q, m), ?_⟩
    unfold checkEntry
    rw [hm1, hq1]
    try dsimp only
    rw [hf]
    try dsimp only
    rw [if_neg (by simp [hav]), if_neg (not_le.mpr hq)]

theorem build_order_items_ok_iff (db : DB) (oid : Nat) (l : List ItemInput) :
    ∀ nid : Nat,
      (∃ ls, build_order_items db oid nid l = .ok ls) ↔ (∀ e ∈ l, validEntry db e) := by
  induction l with
  | nil =>
      intro nid
      simp [build_order_items]
  | cons it rest ih =>
      intro nid
      constructor
      · rintro ⟨ls, hls⟩
        unfold build_order_items at hls
        cases hc : checkEntry db it with
        | error err => rw [hc] at hls; cases hls
        | ok v =>
            rw [hc] at hls
            obtain ⟨m1, q1, mm⟩ := v
            dsimp only at hls
            cases hr : build_order_items db oid (nid + 1) rest with
            | error err2 => rw [hr] at hls; cases hls
            | ok ls2 =>
                intro e he
                rcases List.mem_cons.mp he with rfl | hmem
                · exact checkEntry_ok_iff.mp ⟨_, hc⟩
                · exact ((ih (nid + 1)).mp ⟨ls2, hr⟩) e hmem
      · intro h
        obtain ⟨⟨m1, q1, mm⟩, hc⟩ :=
          checkEntry_ok_iff.mpr (h it (List.mem_cons_self it rest))
        obtain ⟨ls2, hr⟩ :=
          (ih (nid + 1)).mpr (fun e he => h e (List.mem_cons_of_mem it he))
        refine ⟨{ id := nid, order_id := oid, menu_item_id := mm.id,
                  quantity := q1, unit_price := mm.price } :: ls2, ?_⟩
        unfold build_order_items
        rw [hc, hr]
        rfl

theorem build_order_items_length (db : DB) (oid : Nat) (l : List ItemInput) :
    ∀ (nid : Nat) (ls : List OrderItem),
      build_order_items db oid nid l = .ok ls → ls.length = l.length := by
  induction l with
  | nil =>
      intro nid ls h
      cases h
      rfl
  | cons it rest ih =>
      intro nid ls h
      unfold build_order_items at h
      cases hc : checkEntry db it with
      | error err => rw [hc] at h; cases h
      | ok v =>
          rw [hc] at h
          obtain ⟨m1, q1, mm⟩ := v
          dsimp only at h
          cases hr : build_order_items db oid (nid + 1) rest with
          | error err2 => rw [hr] at h; cases h
          | ok ls2 =>
              rw [hr] at h
              cases h
              simp [ih (nid + 1) ls2 hr]

theorem build_order_items_error_cause (db : DB) (oid : Nat) (l : List ItemInput) :
    ∀ (nid : Nat) (err : OrderErr),
      build_order_items db oid nid l = .error err → createFailCause db l err := by
  induction l with
  | nil =>
      intro nid err h
      cases h
  | cons it rest ih =>
      intro nid err h
      unfold build_order_items at h
      cases hc : checkEntry db it with
      | error err2 =>
          rw [hc] at h
          cases h
          exact ⟨it, List.mem_cons_self it rest, checkEntry_error_cause hc⟩
      | ok v =>
          rw [hc] at h
          obtain ⟨m1, q1, mm⟩ := v
          dsimp only at h
          cases hr : build_order_items db oid (nid + 1) rest with
          | error err2 =>
              rw [hr] at h
              cases h
              obtain ⟨e, he, hcause⟩ := ih (nid + 1) _ hr
              exact ⟨e, List.mem_cons_of_mem it he, hcause⟩
          | ok ls2 =>
              rw [hr] at h
              cases h

theorem createFailCause_kind {db : DB} {l : List ItemInput} {err : OrderErr}
    (h : createFailCause db l err) :
    specErrorKind err
      ∈ [ErrorKind.validationError, ErrorKind.notFound, ErrorKind.conflict] := by
  obtain ⟨e, _, hc⟩ := h
  cases err <;> simp [entryFailCause] at hc <;> simp [specErrorKind]

/-- C2: `createOrder` is all-or-nothing. A missing or empty `items` array
is the "Order items are required" answer (the spec's ValidationError); for
a non-empty array, the operation succeeds exactly when every entry is
valid (fields present, menu item existing and available, quantity
positive); on success exactly one new order row — `pending`, unpaid,
owned by the caller — and exactly one line row per input entry are
appended, everything else untouched; on failure the error names a defect
of one of the entries and carries the kind the spec assigns to that
defect (NotFound for a missing menu item, Conflict for an unavailable
one, ValidationError otherwise). An `.error` answer in this model means
the transaction rolled back: the caller keeps the previous `DB`, so zero
order rows and zero line rows are persisted. -/
theorem C2_create_order_all_or_nothing (db : DB) (uid : Nat)
    (items : Option (List ItemInput)) (si : Option String) (now : Nat) :
    ((items = none ∨ items = some []) →
        create_order db uid items si now = .error .itemsRequired
        ∧ specErrorKind .itemsRequired = .validationError)
    ∧ (∀ l, items = some l → l ≠ [] →
        (((∃ db2, create_order db uid items si now = .ok db2) ↔
            (∀ e ∈ l, validEntry db e))
        ∧ (∀ db2, create_order db uid items si now = .ok db2 →
            ∃ o ls, db2.orders = db.orders ++ [o]
              ∧ o.user_id = uid ∧ o.status = "pending" ∧ o.is_paid = false
              ∧ db2.order_items = db.order_items ++ ls
              ∧ ls.length = l.length
              ∧ db2.menu_items = db.menu_items)
        ∧ (∀ err, create_order db uid items si now = .error err →
            createFailCause db l err
            ∧ specErrorKind err
                ∈ [ErrorKind.validationError, ErrorKind.notFound, ErrorKind.conflict]))) := by
  constructor
  · rintro (rfl | rfl)
    · exact ⟨rfl, rfl⟩
    · exact ⟨rfl, rfl⟩
  · rintro l rfl hne
    have hE : l.isEmpty = false := by
      cases l with
      | nil => exact absurd rfl hne
      | cons a as => rfl
    have hbody : create_order db uid (some l) si now
        = (build_order_items db db.next_order_id db.next_order_item_id l).map (fun ls =>
            { db with
              orders := db.orders ++
                [(⟨db.next_order_id, uid, "pending", false, none, si, none,
                   now, now, none⟩ : Order)],
              order_items := db.order_items ++ ls,
              next_order_id := db.next_order_id + 1,
              next_order_item_id := db.next_order_item_id + ls.length }) := by
      unfold create_order
      try dsimp only
      rw [if_neg (by simp [hE])]
    refine ⟨?_, ?_, ?_⟩
    · constructor
      · rintro ⟨db2, h2⟩
        rw [hbody] at h2
        cases hr : build_order_items db db.next_order_id db.next_order_item_id l with
        | error e => rw [hr] at h2; cases h2
        | ok ls =>
            exact (build_order_items_ok_iff db db.next_order_id l
              db.next_order_item_id).mp ⟨ls, hr⟩
      · intro hall
        obtain ⟨ls, hr⟩ := (build_order_items_ok_iff db db.next_order_id l
          db.next_order_item_id).mpr hall
        exact ⟨_, by rw [hbody, hr]; rfl⟩
    · intro db2 h2
      rw [hbody] at h2
      cases hr : build_order_items db db.next_order_id db.next_order_item_id l with
      | error e => rw [hr] at h2; cases h2
      | ok ls =>
          rw [hr] at h2
          cases h2
          refine ⟨_, ls, rfl, rfl, rfl, rfl, rfl, ?_, rfl⟩
          exact build_order_items_length db db.next_order_id l db.next_order_item_id ls hr
    · intro err herr
      rw [hbody] at herr
      cases hr : build_order_items db db.next_order_id db.next_order_item_id l with
      | ok ls => rw [hr] at herr; cases herr
      | error e =>
          rw [hr] at herr
          cases herr
          have hcause := build_order_items_error_cause db db.next_order_id l
            db.next_order_item_id _ hr
          exact ⟨hcause, createFailCause_kind hcause⟩

/-- The worked example for C2: an order referencing an unavailable
catalog item. -/
def exItemC2 : MenuItem :=
  { id := 1, name := "Latte", description := none, price := 4,
    category := "beverages", image_url := none, is_available := false,
    stock_quantity := some 0 }

def exDBC2 : DB :=
  { menu_items := [exItemC2], orders := [], order_items := [],
    next_order_id := 1, next_order_item_id := 1 }

def exEntryC2 : ItemInput :=
  { menu_item_id := some 1, quantity := some 2 }

theorem C2_witness :
    create_order exDBC2 7 (some [exEntryC2]) none 0
      = .error (.itemUnavailable "Latte")
    ∧ createFailCause exDBC2 [exEntryC2] (.itemUnavailable "Latte")
    ∧ specErrorKind (.itemUnavailable "Latte")
        ∈ [ErrorKind.validationError, ErrorKind.notFound, ErrorKind.conflict] :=
  have h := ((C2_create_order_all_or_nothing exDBC2 7 (some [exEntryC2]) none 0).2
    [exEntryC2] rfl (by decide)).2.2 (.itemUnavailable "Latte") (by decide)
  ⟨by decide, h.1, h.2⟩

/-- The status filter condition of `GET /orders` as a predicate: absent
or empty means no restriction, otherwise equality with the given
status. -/
def status_cond (status_f : Option String) (o : Order) : Bool :=
  match status_f with
  | some st => st.isEmpty || o.status == st
  | none => true

/-- The payment filter condition of `GET /orders` as a predicate: absent
means no restriction, otherwise `is_paid == (value.lower() == 'true')`. -/
def paid_cond (is_paid_f : Option String) (o : Order) : Bool :=
  match is_paid_f with
  | some v => o.is_paid == (strToLower v == "true")
  | none => true

theorem mem_orders_query {db : DB} {uid : Nat} {role : String}
    {fuid : Option Nat} {stf ipf : Option String} {o : Order} :
    o ∈ orders_query db uid role fuid stf ipf ↔
      (o ∈ orders_user_scoped db uid role fuid
        ∧ status_cond stf o = true ∧ paid_cond ipf o = true) := by
  unfold orders_query
  rw [List.Perm.mem_iff (List.perm_insertionSort _ _)]
  cases stf with
  | none =>
      cases ipf with
      | none => simp [status_cond, paid_cond]
      | some v => simp [status_cond, paid_cond, List.mem_filter]
  | some st =>
      by_cases hE : st.isEmpty = true <;> cases ipf <;>
        simp [status_cond, paid_cond, hE, List.mem_filter, and_assoc]
      all_goals try (intro _; exact and_comm)

theorem mem_paginate {α : Type} {l : List α} {page per_page : Nat} {a : α}
    (h : a ∈ paginate l page per_page) : a ∈ l := by
  unfold paginate at h
  exact List.drop_subset _ _ (List.take_subset _ _ h)

/-- C8: `GET /orders` scoping. A caller whose role is neither `staff` nor
`admin` only ever receives their own orders, whatever `user_id` filter
they pass; for a staff or admin caller with no `user_id` filter the query
ranges over the orders of all users — every order of any user that passes
the status and payment filters is in the (pre-pagination) query
result. -/
theorem C8_list_orders_scoping (db : DB) (uid : Nat) (role : String)
    (fuid : Option Nat) (stf ipf : Option String) (page per_page : Nat)
    (res : List Order)
    (h : get_orders db uid role fuid stf ipf page per_page = .ok res) :
    ((role ≠ "admin" ∧ role ≠ "staff") → ∀ o ∈ res, o.user_id = uid)
    ∧ ((role = "admin" ∨ role = "staff") → fuid = none →
        ∀ o ∈ db.orders, status_cond stf o = true → paid_cond ipf o = true →
          o ∈ orders_query db uid role none stf ipf) := by
  have hres : res = paginate (orders_query db uid role fuid stf ipf) page per_page := by
    unfold get_orders at h
    cases stf with
    | none => cases h; rfl
    | some st =>
        dsimp only at h
        by_cases hc : (!st.isEmpty && !Order.validate_status st) = true
        · rw [if_pos hc] at h; cases h
        · rw [if_neg hc] at h; cases h; rfl
  constructor
  · intro hrole o ho
    rw [hres] at ho
    have h1 := (mem_orders_query.mp (mem_paginate ho)).1
    unfold orders_user_scoped at h1
    rw [if_pos (by simp [hrole.1, hrole.2])] at h1
    have h2 := (List.mem_filter.mp h1).2
    simpa using h2
  · intro hrole hfn o ho hst hp
    refine mem_orders_query.mpr ⟨?_, hst, hp⟩
    unfold orders_user_scoped
    rcases hrole with hr | hr <;>
      rw [if_neg (by simp [hr])] <;> exact ho

/-- The worked example for C8: one order each for user 1 and user 2. -/
def exOrderC8a : Order :=
  { id := 1, user_id := 1, status := "pending", is_paid := false,
    payment_method := none, special_instructions := none, admin_notes := none,
    created_at := 10, updated_at := 10, completed_at := none }

def exOrderC8b : Order :=
  { id := 2, user_id := 2, status := "pending", is_paid := false,
    payment_method := none, special_instructions := none, admin_notes := none,
    created_at := 20, updated_at := 20, completed_at := none }

def exDBC8 : DB :=
  { menu_items := [], orders := [exOrderC8a, exOrderC8b], order_items := [],
    next_order_id := 3, next_order_item_id := 1 }

theorem C8_witness :
    get_orders exDBC8 1 "user" (some 2) none none 1 20 = .ok [exOrderC8a]
    ∧ exOrderC8a.user_id = 1 :=
  ⟨by decide,
    (C8_list_orders_scoping exDBC8 1 "user" (some 2) none none 1 20 [exOrderC8a]
      (by decide)).1 ⟨by decide, by decide⟩ exOrderC8a (by decide)⟩

theorem charListLe_total : ∀ x y : List Char,
    charListLe x y = true ∨ charListLe y x = true := by
  intro x
  induction x with
  | nil => intro y; exact Or.inl rfl
  | cons a as ih =>
      intro y
      cases y with
      | nil => exact Or.inr rfl
      | cons b bs =>
          by_cases hab : a = b
          · subst hab
            rcases ih bs with h | h
            · exact Or.inl (by simp [charListLe, h])
            · exact Or.inr (by simp [charListLe, h])
          · rcases lt_or_gt_of_ne hab with h | h
            · exact Or.inl (by simp [charListLe, hab, h])
            · exact Or.inr (by simp [charListLe, Ne.symm hab, h])

theorem charListLe_trans : ∀ {x y z : List Char},
    charListLe x y = true → charListLe y z = true → charListLe x z = true := by
  intro x
  induction x with
  | nil => intro y z _ _; rfl
  | cons a as ih =>
      intro y z hxy hyz
      cases y with
      | nil => simp [charListLe] at hxy
      | cons b bs =>
          cases z with
          | nil => simp [charListLe] at hyz
          | cons c cs =>
              by_cases hab : a = b <;> by_cases hbc : b = c
              · subst hab; subst hbc
                simp [charListLe] at hxy hyz ⊢
                exact ih hxy hyz
              · subst hab
                simp [charListLe, hbc] at hyz ⊢
                simpa [hbc] using hyz
              · subst hbc
                simp [charListLe, hab] at hxy ⊢
                simpa [hab] using hxy
              · simp [charListLe, hab] at hxy
                simp [charListLe, hbc] at hyz
                have hac : a < c := lt_trans hxy hyz
                simp [charListLe, ne_of_lt hac, hac]

theorem likeMatch_pct (ps : List Char) (s : List Char) :
    likeMatch ('%' :: ps) s = true ↔ ∃ t, t <:+ s ∧ likeMatch ps t = true := by
  simp [likeMatch, List.any_eq_true, List.mem_tails]

theorem likeMatch_all (t : List Char) : likeMatch ['%'] t = true := by
  rw [likeMatch_pct]
  exact ⟨[], List.nil_suffix, rfl⟩

theorem likeMatch_lit_pct (lit : List Char)
    (hw : ∀ c ∈ lit, c ≠ '%' ∧ c ≠ '_') :
    ∀ t, likeMatch (lit ++ ['%']) t = true ↔ lit <+: t := by
  induction lit with
  | nil =>
      intro t
      simp [likeMatch_all, List.nil_prefix]
  | cons c cs ih =>
      intro t
      have hc := hw c (List.mem_cons_self c cs)
      have hcs := fun e he => hw e (List.mem_cons_of_mem c he)
      cases t with
      | nil => simp [likeMatch, hc.1]
      | cons d t2 =>
          simp [likeMatch, hc.1, hc.2, ih hcs t2, List.cons_prefix_cons]

theorem likeMatch_pct_lit_pct (lit : List Char)
    (hw : ∀ c ∈ lit, c ≠ '%' ∧ c ≠ '_') (hay : List Char) :
    likeMatch ('%' :: (lit ++ ['%'])) hay = true ↔ lit <:+: hay := by
  rw [likeMatch_pct]
  constructor
  · rintro ⟨t, hts, hm⟩
    exact List.infix_iff_prefix_suffix.mpr ⟨t, (likeMatch_lit_pct lit hw t).mp hm, hts⟩
  · intro h
    obtain ⟨t, hp, hs⟩ := List.infix_iff_prefix_suffix.mp h
    exact ⟨t, hs, (likeMatch_lit_pct lit hw t).mpr hp⟩

/-- For a search text without SQL wildcards, the code's `ILIKE %text%`
filter is exactly case-insensitive substring containment. -/
theorem ilike_eq_ciSubstring (s : List Char)
    (hw : ∀ c ∈ s.map Char.toLower, c ≠ '%' ∧ c ≠ '_') (hay : String) :
    ilike ('%' :: s ++ ['%']) hay.data = true ↔ ciSubstring (String.mk s) hay := by
  unfold ilike ciSubstring
  have hmap : ('%' :: s ++ ['%']).map Char.toLower
      = '%' :: (s.map Char.toLower ++ ['%']) := by
    simp
  rw [hmap, likeMatch_pct_lit_pct (s.map Char.toLower) hw (hay.data.map Char.toLower)]

theorem menu_filtered_search (db : DB) (cat av : Option String) (text : String)
    (hne : (trimChars text.data).isEmpty = false) :
    menu_filtered db cat av (some text)
      = (menu_filtered db cat av none).filter
          (fun m => ilike ('%' :: trimChars text.data ++ ['%']) m.name.data) := by
  unfold menu_filtered
  dsimp only [Option.getD]
  rw [if_neg (by simp [hne]),
    if_pos (show (trimChars ("".data)).isEmpty = true from rfl)]

/-- A catalog item whose name matches the LIKE pattern `%a\x25b%` without
containing the search text `a\x25b`: the `\x25` wildcard matches the `x`. -/
def exItemC9 : MenuItem :=
  { id := 1, name := "axb", description := none, price := 3,
    category := "food", image_url := none, is_available := true,
    stock_quantity := some 0 }

def exDBC9 : DB :=
  { menu_items := [exItemC9], orders := [], order_items := [],
    next_order_id := 1, next_order_item_id := 1 }

/-- C9 counterexample: the search filter is SQL `ILIKE` on the raw search
text, so a search text containing the LIKE wildcard `%` matches names it
does not occur in as a substring: searching for `a%b` returns the item
named `axb`, although `a%b` is not a case-insensitive substring of
`axb`. -/
theorem C9_counterexample_wildcard_search :
    get_menu exDBC9 none none (some "a%b") 1 20 = [exItemC9]
    ∧ ¬ ciSubstring "a%b" exItemC9.name := by
  constructor
  · decide
  · decide

/-- C9 (amended): the search filter is the SQL `ILIKE '%' ++ strip(text)
++ '%'` pattern on the item's name. When the stripped search text is
non-empty and contains no LIKE wildcard (`%` or `_`), an item passes the
search filter exactly when the stripped text occurs as a case-insensitive
substring of its name: membership in the searched query is membership in
the same query without search plus substring containment. The returned
items are ordered by name ascending (lexicographically). -/
theorem C9_amended_search_is_ilike (db : DB) (cat av : Option String)
    (text : String) (s : List Char)
    (hs : s = trimChars text.data)
    (hne : s ≠ [])
    (hwild : ∀ c ∈ s.map Char.toLower, c ≠ '%' ∧ c ≠ '_') :
    (∀ m : MenuItem, m ∈ menu_query db cat av (some text) ↔
        (m ∈ menu_query db cat av none ∧ ciSubstring (String.mk s) m.name))
    ∧ ∀ page per_page : Nat,
        (get_menu db cat av (some text) page per_page).Pairwise
          (fun a b => charListLe a.name.data b.name.data = true) := by
  subst hs
  have hE : (trimChars text.data).isEmpty = false := by
    rcases htc : trimChars text.data with _ | ⟨a, l⟩
    · exact absurd htc hne
    · rfl
  constructor
  · intro m
    unfold menu_query
    rw [List.Perm.mem_iff (List.perm_insertionSort _ _),
      List.Perm.mem_iff (List.perm_insertionSort _ _),
      menu_filtered_search db cat av text hE, List.mem_filter]
    constructor
    · rintro ⟨h1, h2⟩
      exact ⟨h1, (ilike_eq_ciSubstring _ hwild m.name).mp h2⟩
    · rintro ⟨h1, h2⟩
      exact ⟨h1, (ilike_eq_ciSubstring _ hwild m.name).mpr h2⟩
  · intro page per_page
    have hsorted : (menu_query db cat av (some text)).Pairwise
        (fun a b => charListLe a.name.data b.name.data = true) := by
      unfold menu_query
      haveI : IsTotal MenuItem (fun a b => charListLe a.name.data b.name.data = true) :=
        ⟨fun a b => charListLe_total _ _⟩
      haveI : IsTrans MenuItem (fun a b => charListLe a.name.data b.name.data = true) :=
        ⟨fun a b c hab hbc => charListLe_trans hab hbc⟩
      exact List.sorted_insertionSort _ _
    unfold get_menu paginate
    exact List.Pairwise.sublist
      ((List.take_sublist _ _).trans (List.drop_sublist _ _)) hsorted

def exItemC9w : MenuItem :=
  { id := 1, name := "Apple Pie", description := none, price := 6,
    category := "desserts", image_url := none, is_available := true,
    stock_quantity := some 0 }

def exDBC9w : DB :=
  { menu_items := [exItemC9w], orders := [], order_items := [],
    next_order_id := 1, next_order_item_id := 1 }

theorem C9_witness :
    trimChars " pie ".data ≠ []
    ∧ (exItemC9w ∈ menu_query exDBC9w none none (some " pie ") ↔
        (exItemC9w ∈ menu_query exDBC9w none none none
          ∧ ciSubstring (String.mk (trimChars " pie ".data)) exItemC9w.name)) :=
  ⟨by decide,
    (C9_amended_search_is_ilike exDBC9w none none " pie " (trimChars " pie ".data)
      rfl (by decide) (by decide)).1 exItemC9w⟩

theorem mem_menu_filtered_available {db : DB} {cat av search : Option String}
    {m : MenuItem} (hm : m ∈ menu_filtered db cat av search)
    (hao : (strToLower (av.getD "true") == "true") = true) :
    m.is_available = true := by
  unfold menu_filtered at hm
  dsimp only at hm
  by_cases hS : (trimChars (search.getD "").data).isEmpty = true
  · rw [if_pos hS, if_pos hao] at hm
    exact (List.mem_filter.mp hm).2
  · rw [if_neg hS, if_pos hao] at hm
    exact (List.mem_filter.mp (List.mem_filter.mp hm).1).2

/-- An unavailable catalog item for the C10 counterexample. -/
def exItemC10 : MenuItem :=
  { id := 1, name := "Cake", description := none, price := 5,
    category := "desserts", image_url := none, is_available := false,
    stock_quantity := some 0 }

def exDBC10 : DB :=
  { menu_items := [exItemC10], orders := [], order_items := [],
    next_order_id := 1, next_order_item_id := 1 }

/-- C10 counterexample: unavailable items do not appear only under
`available=false` — any `available` value whose lowercase form differs
from `"true"` disables the availability filter. With `available=no` the
unavailable item is returned although the caller never passed
`available=false`. -/
theorem C10_counterexample_non_false_value :
    get_menu exDBC10 none (some "no") none 1 20 = [exItemC10]
    ∧ exItemC10.is_available = false
    ∧ some "no" ≠ some "false"
    ∧ strToLower "no" ≠ "false" := by
  decide

/-- C10 (amended): with no `available` parameter the public menu listing
defaults to available-only — every returned item has
`is_available = true`; an unavailable item can appear in the result only
when the caller passed an `available` value whose lowercase form is not
`"true"` (for example `available=false`). -/
theorem C10_default_available_only (db : DB) (cat search : Option String)
    (page per_page : Nat) :
    (∀ m ∈ get_menu db cat none search page per_page, m.is_available = true)
    ∧ (∀ (av : Option String), ∀ m ∈ get_menu db cat av search page per_page,
        m.is_available = false →
        ∃ v, av = some v ∧ strToLower v ≠ "true") := by
  have hmem : ∀ (av : Option String) (m : MenuItem),
      m ∈ get_menu db cat av search page per_page →
      m ∈ menu_filtered db cat av search := by
    intro av m hm
    unfold get_menu at hm
    have h1 := mem_paginate hm
    unfold menu_query at h1
    exact (List.Perm.mem_iff (List.perm_insertionSort _ _)).mp h1
  constructor
  · intro m hm
    exact mem_menu_filtered_available (hmem none m hm) (by decide)
  · intro av m hm hun
    cases av with
    | none =>
        have hav := mem_menu_filtered_available (hmem none m hm) (by decide)
        simp [hav] at hun
    | some v =>
        by_cases hv : (strToLower v == "true") = true
        · have hav := mem_menu_filtered_available (hmem (some v) m hm) (by simpa using hv)
          simp [hav] at hun
        · exact ⟨v, rfl, by simpa using hv⟩

theorem C10_witness :
    exItemC9w ∈ get_menu exDBC9w none none none 1 20
    ∧ exItemC9w.is_available = true :=
  ⟨by decide,
    (C10_default_available_only exDBC9w none none 1 20).1 exItemC9w (by decide)⟩

end Cafeteria
